import Mathlib

/-
  Verification development for the lge-compiler repository.

  The definitions below are a shallow embedding of the compiler's three
  stages (lexer, parser, code generator), of the driver, and of the
  runtime's str_read, translated from the C++/C sources:
    src/src/lexer.cpp, src/src/parser.cpp, src/src/codegen.cpp,
    src/src/main.cpp, src/runtime/lge_runtime.c
  together with the data model of src/include/ast.h.

  Modelling conventions:
  - Stateful C++ members become explicit state records threaded through
    functions; C++ exceptions become Except results paired with the state
    that persists across a throw (as the C++ object state does).
  - C++ while-loops and the unbounded recursions of the recursive-descent
    parser are given an explicit fuel argument; every fuel chosen below is
    large enough that the out-of-fuel branch is never taken on the inputs
    the theorems evaluate.
  - size_t / int become Nat / Int; the one place overflow semantics matter
    (std::stoi) is modelled with the explicit 32-bit bounds check that
    std::stoi performs.
  - float literal payloads are carried as their source lexemes: no claim
    depends on float arithmetic, only on IR types and dispatch.
  - LLVM entities (types, values, instructions) are modelled by inductive
    types; IRBuilder emission is a trace of (current block, instruction)
    pairs. LLVM's constant folding and value naming are not modelled: the
    claims below concern operand-type dispatch, emitted operation kinds,
    synthesized function types and error reporting, none of which folding
    or naming changes.
-/

set_option maxRecDepth 8000

namespace LGE

/-- Source location, mirroring struct Location of src/include/ast.h
(1-based line and column). -/
structure Location where
  line : Nat
  column : Nat
  filename : String
  deriving Repr, DecidableEq

/-- Token kinds, mirroring enum class TokenType of src/include/ast.h. -/
inductive TokenType where
  | UNKNOWN
  | IDENTIFIER
  | STRING_LITERAL
  | INT_LITERAL
  | FLOAT_LITERAL
  | LET
  | IF
  | THEN
  | ELSE
  | ARROW
  | PLUS
  | MINUS
  | MULTIPLY
  | DIVIDE
  | EQUALS
  | LESS_THAN
  | GREATER_THAN
  | LESS_EQUAL
  | GREATER_EQUAL
  | EQUAL_EQUAL
  | NOT_EQUAL
  | LPAREN
  | RPAREN
  | COLON
  | COMMA
  | TYPE_INT
  | TYPE_FLOAT
  | TYPE_CHAR
  | TYPE_STR
  | TYPE_FUNC
  | NEWLINE
  | BACKSLASH
  | COMMENT
  | EOF_TOKEN
  deriving Repr, DecidableEq, BEq

/-- Tokens, mirroring struct Token of src/include/ast.h. -/
structure Token where
  type : TokenType
  value : String
  location : Location
  deriving Repr, DecidableEq

/-- First-found association-list lookup (models std::unordered_map find
for the maps of this codebase, which never hold a key twice). -/
def lookupAssoc {β : Type} : List (String × β) → String → Option β
  | [], _ => none
  | (k', v') :: rest, k => if k' = k then some v' else lookupAssoc rest k

/-- Association-list insert-or-overwrite (models operator[] assignment on
std::unordered_map). -/
def insertAssoc {β : Type} : List (String × β) → String → β → List (String × β)
  | [], k, v => [(k, v)]
  | (k', v') :: rest, k, v =>
    if k' = k then (k, v) :: rest else (k', v') :: insertAssoc rest k v

/-! ## Lexer (src/src/lexer.cpp) -/

/-- Lexer state: the members of class Lexer (src/include/lexer.h), with the
source buffer as a list of characters. position is 0-based; line and
column start at 1. -/
structure LexState where
  input : List Char
  position : Nat
  line : Nat
  column : Nat
  filename : String
  deriving Repr, DecidableEq

/-- The keyword table of src/src/lexer.cpp (anonymous namespace). -/
def keywords : List (String × TokenType) :=
  [("let", .LET), ("if", .IF), ("then", .THEN), ("else", .ELSE),
   ("int", .TYPE_INT), ("float", .TYPE_FLOAT), ("char", .TYPE_CHAR),
   ("str", .TYPE_STR), ("func", .TYPE_FUNC)]

/-- Mirrors Lexer::peek: the character at position + offset, or the NUL
character past the end. -/
def peekL (st : LexState) (offset : Nat) : Char :=
  st.input.getD (st.position + offset) '\x00'

/-- Mirrors Lexer::isAtEnd. -/
def isAtEndL (st : LexState) : Bool :=
  st.position ≥ st.input.length

/-- Mirrors Lexer::advance: consume one character, bumping column, and on a
newline bumping line and resetting column to 1. -/
def advanceL (st : LexState) : Char × LexState :=
  if isAtEndL st then ('\x00', st)
  else
    let c := st.input.getD st.position '\x00'
    let st' := { st with position := st.position + 1, column := st.column + 1 }
    if c = '\n' then (c, { st' with line := st'.line + 1, column := 1 })
    else (c, st')

/-- Mirrors Lexer::match. -/
def matchL (expected : Char) (st : LexState) : Bool × LexState :=
  if isAtEndL st || peekL st 0 ≠ expected then (false, st)
  else (true, (advanceL st).2)

/-- Mirrors Lexer::skipWhitespace. Note that in the newline case the source
increments line and resets column a second time on top of what advance
already did. -/
def skipWhitespace : Nat → LexState → LexState
  | 0, st => st
  | fuel + 1, st =>
    let c := peekL st 0
    if c = ' ' || c = '\t' || c = '\r' then
      skipWhitespace fuel (advanceL st).2
    else if c = '\n' then
      let st1 := (advanceL st).2
      skipWhitespace fuel { st1 with line := st1.line + 1, column := 1 }
    else st

/-- The while-loop of Lexer::handleIdentifier. -/
def identLoop : Nat → LexState → LexState
  | 0, st => st
  | fuel + 1, st =>
    if (peekL st 0).isAlphanum || peekL st 0 = '_' then
      identLoop fuel (advanceL st).2
    else st

/-- Mirrors Lexer::handleIdentifier (entered with position rewound to the
first character of the identifier). -/
def handleIdentifier (st : LexState) : Token × LexState :=
  let start := st.position
  let startColumn := st.column
  let st1 := (advanceL st).2
  let st2 := identLoop (st1.input.length + 1 - st1.position) st1
  let text := String.mk ((st2.input.drop start).take (st2.position - start))
  let ty := match lookupAssoc keywords text with
    | some k => k
    | none => TokenType.IDENTIFIER
  (⟨ty, text, ⟨st2.line, startColumn, st2.filename⟩⟩, st2)

/-- The digit-consuming loops of Lexer::handleNumber. -/
def digitLoop : Nat → LexState → LexState
  | 0, st => st
  | fuel + 1, st =>
    if (peekL st 0).isDigit then digitLoop fuel (advanceL st).2
    else st

/-- Mirrors Lexer::handleNumber (entered with position rewound to the first
digit). -/
def handleNumber (st : LexState) : Token × LexState :=
  let start := st.position
  let startColumn := st.column
  let st1 := digitLoop (st.input.length + 1 - st.position) st
  let (isFloat, st2) :=
    if peekL st1 0 = '.' ∧ (peekL st1 1).isDigit then
      let stDot := (advanceL st1).2
      (true, digitLoop (stDot.input.length + 1 - stDot.position) stDot)
    else (false, st1)
  let numberStr := String.mk ((st2.input.drop start).take (st2.position - start))
  let ty := if isFloat then TokenType.FLOAT_LITERAL else TokenType.INT_LITERAL
  (⟨ty, numberStr, ⟨st2.line, startColumn, st2.filename⟩⟩, st2)

/-- Mirrors Lexer::errorToken: an UNKNOWN token carrying the message, at the
lexer's current line and column. -/
def errorToken (st : LexState) (message : String) : Token :=
  ⟨.UNKNOWN, message, ⟨st.line, st.column, st.filename⟩⟩

/-- Mirrors Lexer::makeToken: location column is the current column minus the
lexeme length (Nat subtraction; the source uses size_t). -/
def makeToken (st : LexState) (ty : TokenType) (value : String) : Token :=
  ⟨ty, value, ⟨st.line, st.column - value.length, st.filename⟩⟩

/-- The read-until-quote loop of Lexer::handleString. The source bumps line
and resets column on an embedded newline before advance bumps them again. -/
def stringLoop : Nat → LexState → List Char → List Char × LexState
  | 0, st, acc => (acc, st)
  | fuel + 1, st, acc =>
    if peekL st 0 ≠ '"' ∧ ¬ isAtEndL st then
      let st := if peekL st 0 = '\n' then { st with line := st.line + 1, column := 1 } else st
      if peekL st 0 = '\\' then
        let st1 := (advanceL st).2
        let e := peekL st1 0
        let c := if e = '"' then '"'
          else if e = '\\' then '\\'
          else if e = 'n' then '\n'
          else if e = 't' then '\t'
          else if e = 'r' then '\r'
          else e
        stringLoop fuel (advanceL st1).2 (acc ++ [c])
      else
        let (c, st1) := advanceL st
        stringLoop fuel st1 (acc ++ [c])
    else (acc, st)

/-- Mirrors Lexer::handleString (entered after the opening quote was
consumed). -/
def handleString (st : LexState) : Token × LexState :=
  let startColumn := st.column - 1
  let (value, st1) := stringLoop (st.input.length + 1 - st.position) st []
  if isAtEndL st1 then (errorToken st1 "Unterminated string", st1)
  else
    let st2 := (advanceL st1).2
    (⟨.STRING_LITERAL, String.mk value, ⟨st2.line, startColumn, st2.filename⟩⟩, st2)

/-- The read-until-newline loop of Lexer::handleComment. -/
def commentLoop : Nat → LexState → List Char → List Char × LexState
  | 0, st, acc => (acc, st)
  | fuel + 1, st, acc =>
    if peekL st 0 ≠ '\n' ∧ ¬ isAtEndL st then
      let (c, st1) := advanceL st
      commentLoop fuel st1 (acc ++ [c])
    else (acc, st)

/-- Mirrors Lexer::handleComment (entered after the '#' was consumed). -/
def handleComment (st : LexState) : Token × LexState :=
  let startColumn := st.column - 1
  let (rest, st1) := commentLoop (st.input.length + 1 - st.position) st []
  (⟨.COMMENT, "#" ++ String.mk rest, ⟨st1.line, startColumn, st1.filename⟩⟩, st1)

/-- Mirrors Lexer::nextToken: skip whitespace, dispatch on the next
character. -/
def nextTokenL (st0 : LexState) : Token × LexState :=
  let st := skipWhitespace (st0.input.length + 1 - st0.position) st0
  if isAtEndL st then (makeToken st .EOF_TOKEN "", st)
  else
    let (c, st1) := advanceL st
    if c.isAlpha || c = '_' then
      handleIdentifier { st1 with position := st1.position - 1, column := st1.column - 1 }
    else if c.isDigit then
      handleNumber { st1 with position := st1.position - 1, column := st1.column - 1 }
    else if c = '"' then handleString st1
    else if c = '#' then handleComment st1
    else
      match c with
      | '(' => (makeToken st1 .LPAREN "(", st1)
      | ')' => (makeToken st1 .RPAREN ")", st1)
      | ',' => (makeToken st1 .COMMA ",", st1)
      | ':' => (makeToken st1 .COLON ":", st1)
      | '+' => (makeToken st1 .PLUS "+", st1)
      | '-' =>
        let (m, st2) := matchL '>' st1
        if m then (makeToken st2 .ARROW "->", st2) else (makeToken st1 .MINUS "-", st1)
      | '*' => (makeToken st1 .MULTIPLY "*", st1)
      | '/' => (makeToken st1 .DIVIDE "/", st1)
      | '=' =>
        let (m, st2) := matchL '=' st1
        if m then (makeToken st2 .EQUAL_EQUAL "==", st2) else (makeToken st1 .EQUALS "=", st1)
      | '\\' => (makeToken st1 .BACKSLASH "\\", st1)
      | '\n' => (makeToken st1 .NEWLINE "\n", st1)
      | '<' =>
        let (m, st2) := matchL '=' st1
        if m then (makeToken st2 .LESS_EQUAL "<=", st2)
        else (makeToken st1 .LESS_THAN "<", st1)
      | '>' =>
        let (m, st2) := matchL '=' st1
        if m then (makeToken st2 .GREATER_EQUAL ">=", st2)
        else (makeToken st1 .GREATER_THAN ">", st1)
      | '!' =>
        let (m, st2) := matchL '=' st1
        if m then (makeToken st2 .NOT_EQUAL "!=", st2)
        else (errorToken st1 "Unexpected character '!'", st1)
      | _ => (errorToken st1 "Unexpected character", st1)

/-- The collect-until-EOF loop of Lexer::tokenize. -/
def tokenizeLoop : Nat → LexState → List Token
  | 0, _ => []
  | fuel + 1, st =>
    let (tok, st') := nextTokenL st
    if tok.type = .EOF_TOKEN then [tok]
    else tok :: tokenizeLoop fuel st'

/-- Mirrors Lexer::tokenize on a source buffer (filename is irrelevant to
every claim and left empty). Each produced token consumes at least one
character, so fuel length+1 never runs out. -/
def tokenizeStr (source : String) : List Token :=
  tokenizeLoop (source.length + 1)
    { input := source.data, position := 0, line := 1, column := 1, filename := "" }

/-! ## AST (src/include/ast.h) -/

/-- Type kinds, mirroring Type::TypeKind of src/include/ast.h. The FUNC
payload (paramTypes, returnType) is never populated by the parser
(src/src/parser.cpp parseType) and no claim touches it, so it is omitted. -/
inductive TypeKind where
  | INT
  | FLOAT
  | CHAR
  | STR
  | FUNC
  deriving Repr, DecidableEq

/-- Mirrors class Type of src/include/ast.h (kind plus location). -/
structure LType where
  kind : TypeKind
  location : Location
  deriving Repr, DecidableEq

/-- Mirrors UnaryOp::OpType. -/
inductive UnaryOpKind where
  | NEG
  deriving Repr, DecidableEq

/-- Mirrors BinaryOp::OpType. -/
inductive BinOpKind where
  | ADD
  | SUB
  | MUL
  | DIV
  | LESS_THAN
  | GREATER_THAN
  | LESS_EQUAL
  | GREATER_EQUAL
  | EQUAL_EQUAL
  | NOT_EQUAL
  deriving Repr, DecidableEq

/-- The Expression hierarchy of src/include/ast.h as a sum type. Int
literal payloads are Int (C int, produced by std::stoi within 32-bit
bounds); float literal payloads are kept as their lexemes (see header
comment). -/
inductive Expr where
  | strLit (value : String) (location : Location)
  | intLit (value : Int) (location : Location)
  | floatLit (lexeme : String) (location : Location)
  | ident (name : String) (location : Location)
  | unaryOp (op : UnaryOpKind) (operand : Expr) (location : Location)
  | binaryOp (op : BinOpKind) (left right : Expr) (location : Location)
  | call (funcName : String) (args : List Expr) (location : Location)
  | cond (condition thenExpr elseExpr : Expr) (location : Location)
  deriving Repr

/-- The location member an Expression carries (ASTNode::location). -/
def Expr.loc : Expr → Location
  | .strLit _ l => l
  | .intLit _ l => l
  | .floatLit _ l => l
  | .ident _ l => l
  | .unaryOp _ _ l => l
  | .binaryOp _ _ _ l => l
  | .call _ _ l => l
  | .cond _ _ _ l => l

/-- Mirrors struct Parameter of src/include/ast.h. -/
structure Param where
  name : String
  type : LType
  location : Location
  deriving Repr

/-- Mirrors class FunctionDef of src/include/ast.h. -/
structure FunctionDef where
  name : String
  returnType : LType
  parameters : List Param
  body : Expr
  location : Location
  deriving Repr

/-! ## Parser (src/src/parser.cpp) -/

/-- The C++ exceptions the parser can see: std::runtime_error thrown by
consume/parseType/parsePrimary/parseCall, and std::invalid_argument /
std::out_of_range thrown by std::stoi. The payload is what e.what()
returns (libstdc++ reports the literal "stoi" for both stoi failures). -/
inductive CppExc where
  | runtimeError (what : String)
  | invalidArgument (what : String)
  | outOfRange (what : String)
  deriving Repr, DecidableEq

/-- e.what() of a CppExc. -/
def CppExc.what : CppExc → String
  | .runtimeError s => s
  | .invalidArgument s => s
  | .outOfRange s => s

/-- Mirrors std::stoi (base 10): skip leading whitespace, optional sign,
at least one digit; std::invalid_argument when there is no digit,
std::out_of_range when the value exceeds 32-bit int. -/
def stoi (s : String) : Except CppExc Int :=
  let cs := s.data.dropWhile (fun c =>
    c = ' ' || c = '\t' || c = '\n' || c = '\r' || c = '\x0b' || c = '\x0c')
  let (neg, cs) := match cs with
    | '-' :: r => (true, r)
    | '+' :: r => (false, r)
    | r => (false, r)
  let ds := cs.takeWhile Char.isDigit
  if ds.isEmpty then .error (.invalidArgument "stoi")
  else
    let v : Int := ds.foldl (fun a c => a * 10 + (Int.ofNat (c.toNat - 48))) 0
    let v := if neg then -v else v
    if v < -2147483648 ∨ v > 2147483647 then .error (.outOfRange "stoi")
    else .ok v

/-- Parser state: the members of class Parser (src/include/parser.h). -/
structure PState where
  tokens : List Token
  current : Nat
  errors : List String
  deriving Repr, DecidableEq

/-- The token tokens[i] denotes; the C++ never indexes out of bounds (the
stream ends in EOF_TOKEN and advance stops there), so the default is
unobservable. -/
def tokenAt (s : PState) (i : Nat) : Token :=
  s.tokens.getD i ⟨.EOF_TOKEN, "", ⟨1, 1, ""⟩⟩

/-- Mirrors Parser::peek. -/
def peekT (s : PState) : Token := tokenAt s s.current

/-- Mirrors Parser::previous. -/
def previousT (s : PState) : Token := tokenAt s (s.current - 1)

/-- Mirrors Parser::isAtEnd. -/
def isAtEndT (s : PState) : Bool := (peekT s).type == .EOF_TOKEN

/-- Mirrors Parser::advance. -/
def advanceT (s : PState) : Token × PState :=
  let s' := if isAtEndT s then s else { s with current := s.current + 1 }
  (previousT s', s')

/-- Mirrors Parser::check. -/
def checkT (ty : TokenType) (s : PState) : Bool :=
  if isAtEndT s then false else (peekT s).type == ty

/-- Mirrors Parser::match over an initializer list of kinds. -/
def matchT (tys : List TokenType) (s : PState) : Bool × PState :=
  match tys with
  | [] => (false, s)
  | ty :: rest =>
    if checkT ty s then (true, (advanceT s).2)
    else matchT rest s

/-- Mirrors Parser::consume: advance on the expected kind, otherwise throw
a runtime_error "<msg> at L:C" built from peek's location. -/
def consumeT (ty : TokenType) (message : String) (s : PState) :
    Except CppExc Token × PState :=
  if checkT ty s then
    let (t, s') := advanceT s
    (.ok t, s')
  else
    (.error (.runtimeError (message ++ " at " ++ toString (peekT s).location.line
      ++ ":" ++ toString (peekT s).location.column)), s)

/-- The while-loop of Parser::synchronize. -/
def syncLoop : Nat → PState → PState
  | 0, s => s
  | fuel + 1, s =>
    if isAtEndT s then s
    else if (previousT s).type == .NEWLINE then s
    else if (peekT s).type == .LET then s
    else syncLoop fuel (advanceT s).2

/-- Mirrors Parser::synchronize: advance once, then skip to a boundary. -/
def synchronizeT (s : PState) : PState :=
  syncLoop (s.tokens.length + 1) (advanceT s).2

/-- Mirrors Parser::error(message). -/
def recordError (message : String) (s : PState) : PState :=
  { s with errors := s.errors ++ [message] }

/-- Mirrors Parser::parseType. -/
def parseType (s : PState) : Except CppExc LType × PState :=
  let (tok, s) := advanceT s
  match tok.type with
  | .TYPE_INT => (.ok ⟨.INT, tok.location⟩, s)
  | .TYPE_FLOAT => (.ok ⟨.FLOAT, tok.location⟩, s)
  | .TYPE_CHAR => (.ok ⟨.CHAR, tok.location⟩, s)
  | .TYPE_STR => (.ok ⟨.STR, tok.location⟩, s)
  | .TYPE_FUNC => (.ok ⟨.FUNC, tok.location⟩, s)
  | _ => (.error (.runtimeError "Expected type identifier"), s)

/-- The do-while loop of Parser::parseParameters. -/
def paramsLoop : Nat → PState → List Param → Except CppExc (List Param) × PState
  | 0, s, _ => (.error (.runtimeError "fuel"), s)
  | fuel + 1, s, acc =>
    match consumeT .IDENTIFIER "Expected parameter name" s with
    | (.error e, s) => (.error e, s)
    | (.ok nameTok, s) =>
      match consumeT .COLON "Expected ':' after parameter name" s with
      | (.error e, s) => (.error e, s)
      | (.ok _, s) =>
        match parseType s with
        | (.error e, s) => (.error e, s)
        | (.ok ty, s) =>
          let acc := acc ++ [⟨nameTok.value, ty, nameTok.location⟩]
          let (m, s) := matchT [.COMMA] s
          if m then paramsLoop fuel s acc else (.ok acc, s)

/-- Mirrors Parser::parseParameters. -/
def parseParameters (s : PState) : Except CppExc (List Param) × PState :=
  if checkT .RPAREN s then (.ok [], s)
  else paramsLoop (s.tokens.length + 1) s []

/-- The result type of the expression-parser methods. -/
abbrev PRes := Except CppExc Expr × PState

/-- The mutually recursive expression-parser methods of class Parser, as
one bundle indexed by remaining recursion fuel: the methods at fuel
n + 1 call the methods at fuel n. (The bundle-of-functions encoding is
chosen for its reduction behavior; each field mirrors one method of
src/src/parser.cpp.) -/
structure ParserFns where
  parseExpressionF : PState → PRes
  parseConditionalF : PState → PRes
  parseComparisonF : PState → PRes
  comparisonLoopF : Expr → PState → PRes
  parseAdditionF : PState → PRes
  additionLoopF : Expr → PState → PRes
  parseMultiplicationF : PState → PRes
  multiplicationLoopF : Expr → PState → PRes
  parseUnaryF : PState → PRes
  parsePrimaryF : PState → PRes
  parseCallF : String → Location → PState → PRes
  argsLoopF : List Expr → PState → Except CppExc (List Expr) × PState

/-- The methods with no fuel left (never reached on the inputs evaluated
below). -/
def parserOut : ParserFns where
  parseExpressionF := fun s => (.error (.runtimeError "fuel"), s)
  parseConditionalF := fun s => (.error (.runtimeError "fuel"), s)
  parseComparisonF := fun s => (.error (.runtimeError "fuel"), s)
  comparisonLoopF := fun _ s => (.error (.runtimeError "fuel"), s)
  parseAdditionF := fun s => (.error (.runtimeError "fuel"), s)
  additionLoopF := fun _ s => (.error (.runtimeError "fuel"), s)
  parseMultiplicationF := fun s => (.error (.runtimeError "fuel"), s)
  multiplicationLoopF := fun _ s => (.error (.runtimeError "fuel"), s)
  parseUnaryF := fun s => (.error (.runtimeError "fuel"), s)
  parsePrimaryF := fun s => (.error (.runtimeError "fuel"), s)
  parseCallF := fun _ _ s => (.error (.runtimeError "fuel"), s)
  argsLoopF := fun _ s => (.error (.runtimeError "fuel"), s)

/-- One fuel level of the expression parser: each field mirrors the body
of the corresponding method of src/src/parser.cpp. -/
def parserStep (prev : ParserFns) : ParserFns where
  -- Mirrors Parser::parseExpression.
  parseExpressionF := fun s =>
    let (m, s) := matchT [.IF] s
    if m then prev.parseConditionalF s else prev.parseComparisonF s
  -- Mirrors Parser::parseConditional.
  parseConditionalF := fun s =>
    match prev.parseComparisonF s with
    | (.error e, s) => (.error e, s)
    | (.ok condition, s) =>
      match consumeT .THEN "Expected 'then' after if condition" s with
      | (.error e, s) => (.error e, s)
      | (.ok _, s) =>
        match prev.parseExpressionF s with
        | (.error e, s) => (.error e, s)
        | (.ok thenE, s) =>
          match consumeT .ELSE "Expected 'else' after then expression" s with
          | (.error e, s) => (.error e, s)
          | (.ok _, s) =>
            match prev.parseExpressionF s with
            | (.error e, s) => (.error e, s)
            | (.ok elseE, s) =>
              (.ok (.cond condition thenE elseE condition.loc), s)
  -- Mirrors Parser::parseComparison (header plus its while-loop).
  parseComparisonF := fun s =>
    match prev.parseAdditionF s with
    | (.error e, s) => (.error e, s)
    | (.ok e, s) => prev.comparisonLoopF e s
  comparisonLoopF := fun expr s =>
    let (m, s) := matchT [.LESS_THAN, .GREATER_THAN, .LESS_EQUAL,
      .GREATER_EQUAL, .EQUAL_EQUAL, .NOT_EQUAL] s
    if m then
      let op := previousT s
      match prev.parseAdditionF s with
      | (.error e, s) => (.error e, s)
      | (.ok right, s) =>
        let opType : BinOpKind :=
          match op.type with
          | .LESS_THAN => .LESS_THAN
          | .GREATER_THAN => .GREATER_THAN
          | .LESS_EQUAL => .LESS_EQUAL
          | .GREATER_EQUAL => .GREATER_EQUAL
          | .EQUAL_EQUAL => .EQUAL_EQUAL
          | _ => .NOT_EQUAL
        prev.comparisonLoopF (.binaryOp opType expr right op.location) s
    else (.ok expr, s)
  -- Mirrors Parser::parseAddition (header plus its while-loop).
  parseAdditionF := fun s =>
    match prev.parseMultiplicationF s with
    | (.error e, s) => (.error e, s)
    | (.ok e, s) => prev.additionLoopF e s
  additionLoopF := fun expr s =>
    let (m, s) := matchT [.PLUS, .MINUS] s
    if m then
      let op := previousT s
      match prev.parseMultiplicationF s with
      | (.error e, s) => (.error e, s)
      | (.ok right, s) =>
        let opType : BinOpKind := if op.type == .PLUS then .ADD else .SUB
        prev.additionLoopF (.binaryOp opType expr right op.location) s
    else (.ok expr, s)
  -- Mirrors Parser::parseMultiplication (header plus its while-loop).
  parseMultiplicationF := fun s =>
    match prev.parseUnaryF s with
    | (.error e, s) => (.error e, s)
    | (.ok e, s) => prev.multiplicationLoopF e s
  multiplicationLoopF := fun expr s =>
    let (m, s) := matchT [.MULTIPLY, .DIVIDE] s
    if m then
      let op := previousT s
      match prev.parseUnaryF s with
      | (.error e, s) => (.error e, s)
      | (.ok right, s) =>
        let opType : BinOpKind := if op.type == .MULTIPLY then .MUL else .DIV
        prev.multiplicationLoopF (.binaryOp opType expr right op.location) s
    else (.ok expr, s)
  -- Mirrors Parser::parseUnary (right-associative chain of unary minus).
  parseUnaryF := fun s =>
    let (m, s) := matchT [.MINUS] s
    if m then
      let op := previousT s
      match prev.parseUnaryF s with
      | (.error e, s) => (.error e, s)
      | (.ok e, s) => (.ok (.unaryOp .NEG e op.location), s)
    else prev.parsePrimaryF s
  -- Mirrors Parser::parsePrimary. std::stoi / std::stof run on the matched
  -- literal lexeme; a stoi exception propagates out of the parser's call
  -- chain exactly as the C++ exception does.
  parsePrimaryF := fun s =>
    let (m, s) := matchT [.STRING_LITERAL] s
    if m then (.ok (.strLit (previousT s).value (previousT s).location), s)
    else
      let (m, s) := matchT [.INT_LITERAL] s
      if m then
        match stoi (previousT s).value with
        | .error e => (.error e, s)
        | .ok v => (.ok (.intLit v (previousT s).location), s)
      else
        let (m, s) := matchT [.FLOAT_LITERAL] s
        if m then (.ok (.floatLit (previousT s).value (previousT s).location), s)
        else
          let (m, s) := matchT [.IDENTIFIER] s
          if m then
            let identTok := previousT s
            if checkT .LPAREN s then
              prev.parseCallF identTok.value identTok.location s
            else (.ok (.ident identTok.value identTok.location), s)
          else
            let (m, s) := matchT [.LPAREN] s
            if m then
              match prev.parseExpressionF s with
              | (.error e, s) => (.error e, s)
              | (.ok e, s) =>
                match consumeT .RPAREN "Expected ')' after expression" s with
                | (.error err, s) => (.error err, s)
                | (.ok _, s) => (.ok e, s)
            else (.error (.runtimeError "Expected expression"), s)
  -- Mirrors Parser::parseCall (the Identifier cast always succeeds on this
  -- call path, so the name and location are taken directly), together
  -- with its argument do-while loop (argsLoopF).
  parseCallF := fun name loc s =>
    match consumeT .LPAREN "Expected '(' after function name" s with
    | (.error e, s) => (.error e, s)
    | (.ok _, s) =>
      let argsRes :=
        if checkT .RPAREN s then (.ok [], s)
        else prev.argsLoopF [] s
      match argsRes with
      | (.error e, s) => (.error e, s)
      | (.ok args, s) =>
        match consumeT .RPAREN "Expected ')' after arguments" s with
        | (.error e, s) => (.error e, s)
        | (.ok _, s) => (.ok (.call name args loc), s)
  argsLoopF := fun acc s =>
    match prev.parseExpressionF s with
    | (.error e, s) => (.error e, s)
    | (.ok e, s) =>
      let acc := acc ++ [e]
      let (m, s) := matchT [.COMMA] s
      if m then prev.argsLoopF acc s else (.ok acc, s)

/-- The parser methods with the given recursion fuel (plain iteration of
parserStep, so that n + 1 reduces to parserStep of level n). -/
def parserAt (fuel : Nat) : ParserFns :=
  Nat.rec parserOut (fun _ prev => parserStep prev) fuel

/-- Mirrors Parser::parseExpression. -/
def parseExpression (fuel : Nat) (s : PState) : PRes :=
  (parserAt fuel).parseExpressionF s

/-- Mirrors Parser::parseConditional. -/
def parseConditional (fuel : Nat) (s : PState) : PRes :=
  (parserAt fuel).parseConditionalF s

/-- Mirrors Parser::parseComparison. -/
def parseComparison (fuel : Nat) (s : PState) : PRes :=
  (parserAt fuel).parseComparisonF s

/-- Mirrors Parser::parseAddition. -/
def parseAddition (fuel : Nat) (s : PState) : PRes :=
  (parserAt fuel).parseAdditionF s

/-- Mirrors Parser::parseMultiplication. -/
def parseMultiplication (fuel : Nat) (s : PState) : PRes :=
  (parserAt fuel).parseMultiplicationF s

/-- Mirrors Parser::parseUnary. -/
def parseUnary (fuel : Nat) (s : PState) : PRes :=
  (parserAt fuel).parseUnaryF s

/-- Mirrors Parser::parsePrimary. -/
def parsePrimary (fuel : Nat) (s : PState) : PRes :=
  (parserAt fuel).parsePrimaryF s

/-- Mirrors Parser::parseCall. -/
def parseCall (fuel : Nat) (name : String) (loc : Location) (s : PState) : PRes :=
  (parserAt fuel).parseCallF name loc s


/-- The expression fuel a top-level parse supplies: generous enough that the
out-of-fuel branches are never taken (each descent either consumes a
token first or moves one level down the 8-deep grammar). -/
def exprFuel (s : PState) : Nat := 8 * (s.tokens.length + 1) + 8

/-- Mirrors Parser::parseFunction. -/
def parseFunction (s : PState) : Except CppExc FunctionDef × PState :=
  match consumeT .LET "Expected 'let' at start of function definition" s with
  | (.error e, s) => (.error e, s)
  | (.ok _, s) =>
    match consumeT .IDENTIFIER "Expected function name after 'let'" s with
    | (.error e, s) => (.error e, s)
    | (.ok nameTok, s) =>
      match consumeT .COLON "Expected ':' after function name" s with
      | (.error e, s) => (.error e, s)
      | (.ok _, s) =>
        match parseType s with
        | (.error e, s) => (.error e, s)
        | (.ok retTy, s) =>
          match consumeT .EQUALS "Expected '=' after return type" s with
          | (.error e, s) => (.error e, s)
          | (.ok _, s) =>
            match consumeT .LPAREN "Expected '(' for function parameters" s with
            | (.error e, s) => (.error e, s)
            | (.ok _, s) =>
              match parseParameters s with
              | (.error e, s) => (.error e, s)
              | (.ok params, s) =>
                match consumeT .RPAREN "Expected ')' after function parameters" s with
                | (.error e, s) => (.error e, s)
                | (.ok _, s) =>
                  match consumeT .ARROW "Expected '->' after parameters" s with
                  | (.error e, s) => (.error e, s)
                  | (.ok _, s) =>
                    match parseExpression (exprFuel s) s with
                    | (.error e, s) => (.error e, s)
                    | (.ok body, s) =>
                      (.ok ⟨nameTok.value, retTy, params, body, nameTok.location⟩, s)

/-- The skip-comments loop at the top of Parser::parse. -/
def skipComments : Nat → PState → PState
  | 0, s => s
  | fuel + 1, s =>
    let (m, s') := matchT [.COMMENT] s
    if m then skipComments fuel s' else s'

/-- The parse-functions loop of Parser::parse: a syntactic failure is
caught, recorded with e.what(), and followed by resynchronization. -/
def parseLoop : Nat → PState → List FunctionDef → List FunctionDef × PState
  | 0, s, acc => (acc, s)
  | fuel + 1, s, acc =>
    if isAtEndT s then (acc, s)
    else
      let s := skipComments (s.tokens.length + 1) s
      if isAtEndT s then (acc, s)
      else
        match parseFunction s with
        | (.ok f, s) => parseLoop fuel s (acc ++ [f])
        | (.error e, s) =>
          let s := recordError e.what s
          let s := synchronizeT s
          parseLoop fuel s acc

/-- Mirrors Parser::parse plus Parser::hasErrors: the Program's function
list and the collected error list. -/
def parseTokens (toks : List Token) : List FunctionDef × List String :=
  let s0 : PState := { tokens := toks, current := 0, errors := [] }
  let (fs, s) := parseLoop (toks.length + 1) s0 []
  (fs, s.errors)

/-! ## Code generator (src/src/codegen.cpp)

LLVM is modelled: types and SSA values as inductives, the IRBuilder as
a trace of (insertion-block id, instruction) pairs appended in program
order, basic blocks as fresh Nat ids, the module as its list of
functions (built-ins and user functions) plus its string globals.
Value names ("addtmp", ...) and IRBuilder constant folding are not
modelled (see the header comment). -/

/-- LLVM types as used by this code: iN, float, pointers, function types. -/
inductive IRType where
  | i (bits : Nat)
  | fp
  | ptr (pointee : IRType)
  | fnTy (ret : IRType) (params : List IRType)
  deriving Repr

/-- llvm::Type::isIntegerTy. -/
def IRType.isIntegerTy : IRType → Bool
  | .i _ => true
  | _ => false

/-- llvm::Type::isFloatingPointTy. -/
def IRType.isFloatingPointTy : IRType → Bool
  | .fp => true
  | _ => false

/-- LLVM values: constants, the pointer to a string global, function
arguments, functions used as values, and instruction results (regs). -/
inductive IRValue where
  | constInt (ty : IRType) (v : Int)
  | constFP (ty : IRType) (repr : String)
  | globalStr (id : Nat)
  | arg (fid : Nat) (name : String) (ty : IRType)
  | funcRef (name : String) (ty : IRType)
  | funcCast (name : String) (ty : IRType)
  | reg (id : Nat) (ty : IRType)
  deriving Repr

/-- llvm::Value::getType. -/
def IRValue.getType : IRValue → IRType
  | .constInt ty _ => ty
  | .constFP ty _ => ty
  | .globalStr _ => .ptr (.i 8)
  | .arg _ _ ty => ty
  | .funcRef _ ty => ty
  | .funcCast _ ty => ty
  | .reg _ ty => ty

/-- Integer comparison predicates (CreateICmpSLT and friends). -/
inductive IPred where
  | slt
  | sgt
  | sle
  | sge
  | eq
  | ne
  deriving Repr, DecidableEq

/-- Ordered float comparison predicates (CreateFCmpOLT and friends). -/
inductive FPred where
  | olt
  | ogt
  | ole
  | oge
  | oeq
  | one
  deriving Repr, DecidableEq

/-- The binary instruction kinds this generator emits. -/
inductive BinKind where
  | add
  | sub
  | mul
  | sdiv
  | fadd
  | fsub
  | fmul
  | fdiv
  | icmp (pred : IPred)
  | fcmp (pred : FPred)
  deriving Repr, DecidableEq

/-- The instructions the generator's builder emits. Every
instruction-producing Create* is recorded with its fresh result id. -/
inductive Instr where
  | binop (id : Nat) (kind : BinKind) (l r : IRValue)
  | neg (id : Nat) (v : IRValue)
  | fneg (id : Nat) (v : IRValue)
  | bitcast (id : Nat) (v : IRValue) (ty : IRType)
  | callInstr (id : Nat) (retTy : IRType) (callee : IRValue) (args : List IRValue)
  | condBr (c : IRValue) (thenBlk elseBlk : Nat)
  | br (blk : Nat)
  | phi (id : Nat) (ty : IRType) (incoming : List (IRValue × Nat))
  | ret (v : IRValue)
  deriving Repr

/-- A function of the IR module: its identity (fid), name and signature
(llvm::Function as far as the claims need it). -/
structure FuncDecl where
  fid : Nat
  name : String
  retTy : IRType
  paramTys : List IRType
  paramNames : List String
  isBuiltin : Bool
  deriving Repr

/-- The IR module: its functions (declarations and definitions) and its
string globals, with counters for fresh ids. -/
structure IRModule where
  funcs : List FuncDecl
  globals : List (Nat × String)
  nextFid : Nat
  nextGlobal : Nat
  deriving Repr

/-- llvm::Module::getFunction: first function with the given name. -/
def getFunction (m : IRModule) (name : String) : Option FuncDecl :=
  m.funcs.find? (fun fd => fd.name == name)

/-- CodeGenerator state: the members of class CodeGenerator
(src/include/codegen.h) plus the builder/block bookkeeping. errors is
the sequence of reportError lines written to stderr. -/
structure CGState where
  module : IRModule
  namedValues : List (String × IRValue)
  functions : List (String × Nat)
  currentFunction : Option Nat
  trace : List (Nat × Instr)
  curBlock : Nat
  nextBlock : Nat
  nextReg : Nat
  errors : List (String × Location)
  deriving Repr

/-- Mirrors CodeGenerator::llvmType (the default branch is unreachable:
TypeKind is a closed enum). -/
def llvmType : TypeKind → IRType
  | .INT => .i 32
  | .FLOAT => .fp
  | .CHAR => .i 8
  | .STR => .ptr (.i 8)
  | .FUNC => .ptr (.i 8)

/-- Mirrors CodeGenerator::reportError: one line on stderr. -/
def reportErr (message : String) (loc : Location) (s : CGState) : CGState :=
  { s with errors := s.errors ++ [(message, loc)] }

/-- Emit one instruction-producing builder call: a fresh result id, the
instruction appended at the current insertion block. -/
def emitInstr (mk : Nat → Instr) (resTy : IRType) (s : CGState) : IRValue × CGState :=
  (.reg s.nextReg resTy,
   { s with nextReg := s.nextReg + 1,
            trace := s.trace ++ [(s.curBlock, mk s.nextReg)] })

/-- Emit a non-value terminator (CreateBr / CreateCondBr / CreateRet). -/
def emitTerm (i : Instr) (s : CGState) : CGState :=
  { s with trace := s.trace ++ [(s.curBlock, i)] }

/-- The shared code after the BinaryOp switch: reportError "Unsupported
binary operation" at the operator's location and yield no value. -/
def binOpUnsupported (loc : Location) (s : CGState) : Option IRValue × CGState :=
  (none, reportErr "Unsupported binary operation" loc s)

/-- One arithmetic case of the BinaryOp switch: integer op when both
operands are integers, float op when both are floats, otherwise break
to the shared error. The result type of CreateAdd etc. is the operand
type. -/
def arithCase (ik fk : BinKind) (l r : IRValue) (loc : Location) (s : CGState) :
    Option IRValue × CGState :=
  if l.getType.isIntegerTy && r.getType.isIntegerTy then
    let (v, s) := emitInstr (fun id => .binop id ik l r) l.getType s
    (some v, s)
  else if l.getType.isFloatingPointTy && r.getType.isFloatingPointTy then
    let (v, s) := emitInstr (fun id => .binop id fk l r) l.getType s
    (some v, s)
  else binOpUnsupported loc s

/-- One comparison case of the BinaryOp switch: i1-valued ICmp / FCmp, or
break to the shared error. -/
def cmpCase (ip : IPred) (fp : FPred) (l r : IRValue) (loc : Location) (s : CGState) :
    Option IRValue × CGState :=
  if l.getType.isIntegerTy && r.getType.isIntegerTy then
    let (v, s) := emitInstr (fun id => .binop id (.icmp ip) l r) (.i 1) s
    (some v, s)
  else if l.getType.isFloatingPointTy && r.getType.isFloatingPointTy then
    let (v, s) := emitInstr (fun id => .binop id (.fcmp fp) l r) (.i 1) s
    (some v, s)
  else binOpUnsupported loc s

/-- The BinaryOp switch of CodeGenerator::generateExpression exactly as the
source has it: the DIV case has no break, so mixed-type operands fall
through into the LESS_THAN case's body (whose own conditions then also
fail, reaching the shared error). -/
def binSwitch (op : BinOpKind) (l r : IRValue) (loc : Location) (s : CGState) :
    Option IRValue × CGState :=
  match op with
  | .ADD => arithCase .add .fadd l r loc s
  | .SUB => arithCase .sub .fsub l r loc s
  | .MUL => arithCase .mul .fmul l r loc s
  | .DIV =>
    if l.getType.isIntegerTy && r.getType.isIntegerTy then
      let (v, s) := emitInstr (fun id => .binop id .sdiv l r) l.getType s
      (some v, s)
    else if l.getType.isFloatingPointTy && r.getType.isFloatingPointTy then
      let (v, s) := emitInstr (fun id => .binop id .fdiv l r) l.getType s
      (some v, s)
    else
      -- missing break: control falls into the LESS_THAN case
      cmpCase .slt .olt l r loc s
  | .LESS_THAN => cmpCase .slt .olt l r loc s
  | .GREATER_THAN => cmpCase .sgt .ogt l r loc s
  | .LESS_EQUAL => cmpCase .sle .ole l r loc s
  | .GREATER_EQUAL => cmpCase .sge .oge l r loc s
  | .EQUAL_EQUAL => cmpCase .eq .oeq l r loc s
  | .NOT_EQUAL => cmpCase .ne .one l r loc s

/-- The same switch as the specification describes it (section 4.3 of the
spec): every case, DIV included, emits its operation and stops. Written
from the spec's words, to be compared with binSwitch. -/
def binSwitchSpec (op : BinOpKind) (l r : IRValue) (loc : Location) (s : CGState) :
    Option IRValue × CGState :=
  match op with
  | .ADD => arithCase .add .fadd l r loc s
  | .SUB => arithCase .sub .fsub l r loc s
  | .MUL => arithCase .mul .fmul l r loc s
  | .DIV => arithCase .sdiv .fdiv l r loc s
  | .LESS_THAN => cmpCase .slt .olt l r loc s
  | .GREATER_THAN => cmpCase .sgt .ogt l r loc s
  | .LESS_EQUAL => cmpCase .sle .ole l r loc s
  | .GREATER_EQUAL => cmpCase .sge .oge l r loc s
  | .EQUAL_EQUAL => cmpCase .eq .oeq l r loc s
  | .NOT_EQUAL => cmpCase .ne .one l r loc s

mutual

/-- Mirrors CodeGenerator::generateExpression. The fuel argument bounds
the recursion depth; every caller supplies at least the expression's
size plus one, so the zero branch is never taken. -/
def generateExpression : Nat → Expr → CGState → Option IRValue × CGState
  | 0, _, s => (none, s)
  | fuel + 1, e, s =>
    match e with
    | .intLit v _ => (some (.constInt (.i 32) v), s)
    | .floatLit lex _ => (some (.constFP .fp lex), s)
    | .strLit str _ =>
      -- CreateGlobalStringPtr: a fresh module global, value is its i8*
      let gid := s.module.nextGlobal
      (some (.globalStr gid),
       { s with module := { s.module with
           globals := s.module.globals ++ [(gid, str)],
           nextGlobal := gid + 1 } })
    | .ident name loc =>
      match lookupAssoc s.namedValues name with
      | some v => (some v, s)
      | none =>
        match lookupAssoc s.functions name with
        | some _ =>
          -- CreateBitCast of a Function constant to i8* folds to a
          -- constant expression; no instruction is emitted
          (some (.funcCast name (.ptr (.i 8))), s)
        | none => (none, reportErr ("Undefined variable: " ++ name) loc s)
    | .unaryOp .NEG operand loc =>
      match generateExpression fuel operand s with
      | (none, s) => (none, s)
      | (some v, s) =>
        if v.getType.isIntegerTy then
          let (r, s) := emitInstr (fun id => .neg id v) v.getType s
          (some r, s)
        else if v.getType.isFloatingPointTy then
          let (r, s) := emitInstr (fun id => .fneg id v) v.getType s
          (some r, s)
        else
          -- break out of the switch: control leaves the UnaryOp block and
          -- falls to the final "Unknown expression type" report
          (none, reportErr "Unknown expression type" loc s)
    | .binaryOp op left right loc =>
      let (lv, s) := generateExpression fuel left s
      let (rv, s) := generateExpression fuel right s
      match lv, rv with
      | some lv, some rv => binSwitch op lv rv loc s
      | _, _ => (none, s)
    | .call funcName args loc =>
      match lookupAssoc s.namedValues funcName with
      | some funcPtr =>
        -- the callee is a function parameter: indirect call
        match generateArgs fuel args s with
        | (none, s) => (none, s)
        | (some argVals, s) =>
          let argTypes := argVals.map IRValue.getType
          -- return type assumed i32 (hard-wired)
          let funcType := IRType.fnTy (.i 32) argTypes
          let (casted, s) := emitInstr
            (fun id => .bitcast id funcPtr (.ptr funcType)) (.ptr funcType) s
          let (res, s) := emitInstr
            (fun id => .callInstr id (.i 32) casted argVals) (.i 32) s
          (some res, s)
      | none =>
        let fdOpt :=
          match lookupAssoc s.functions funcName with
          | some fid => s.module.funcs.find? (fun fd : FuncDecl => fd.fid == fid)
          | none => getFunction s.module funcName
        match fdOpt with
        | none => (none, reportErr ("Undefined function: " ++ funcName) loc s)
        | some fd =>
          if fd.paramTys.length ≠ args.length then
            (none, reportErr
              ("Incorrect number of arguments for function: " ++ funcName) loc s)
          else
            match generateArgs fuel args s with
            | (none, s) => (none, s)
            | (some argVals, s) =>
              let callee := IRValue.funcRef fd.name (.ptr (.fnTy fd.retTy fd.paramTys))
              let (res, s) := emitInstr
                (fun id => .callInstr id fd.retTy callee argVals) fd.retTy s
              (some res, s)
    | .cond condition thenExpr elseExpr loc =>
      match generateExpression fuel condition s with
      | (none, s) => (none, s)
      | (some condV, s) =>
        let boolRes : Option IRValue × CGState :=
          if condV.getType.isIntegerTy then
            let (v, s) := emitInstr
              (fun id => .binop id (.icmp .ne) condV (.constInt condV.getType 0)) (.i 1) s
            (some v, s)
          else if condV.getType.isFloatingPointTy then
            let (v, s) := emitInstr
              (fun id => .binop id (.fcmp .one) condV (.constFP condV.getType "0.0")) (.i 1) s
            (some v, s)
          else
            (none, reportErr "Invalid condition type for if expression" loc s)
        match boolRes with
        | (none, s) => (none, s)
        | (some condBool, s) =>
          let thenB := s.nextBlock
          let elseB := s.nextBlock + 1
          let mergeB := s.nextBlock + 2
          let s := { s with nextBlock := s.nextBlock + 3 }
          let s := emitTerm (.condBr condBool thenB elseB) s
          let s := { s with curBlock := thenB }
          match generateExpression fuel thenExpr s with
          | (none, s) => (none, s)
          | (some thenV, s) =>
            let s := emitTerm (.br mergeB) s
            let thenBlk := s.curBlock
            let s := { s with curBlock := elseB }
            match generateExpression fuel elseExpr s with
            | (none, s) => (none, s)
            | (some elseV, s) =>
              let s := emitTerm (.br mergeB) s
              let elseBlk := s.curBlock
              let s := { s with curBlock := mergeB }
              let (phiV, s) := emitInstr
                (fun id => .phi id thenV.getType [(thenV, thenBlk), (elseV, elseBlk)])
                thenV.getType s
              (some phiV, s)
termination_by structural fuel _ _ => fuel

/-- The argument-generation loops of CodeGenerator::generateExpression:
stop at the first argument that produced no value. -/
def generateArgs : Nat → List Expr → CGState → Option (List IRValue) × CGState
  | 0, _, s => (none, s)
  | fuel + 1, es, s =>
    match es with
    | [] => (some [], s)
    | e :: rest =>
      match generateExpression fuel e s with
      | (none, s) => (none, s)
      | (some v, s) =>
        match generateArgs fuel rest s with
        | (none, s) => (none, s)
        | (some vs, s) => (some (v :: vs), s)
termination_by structural fuel _ _ => fuel

end

mutual

/-- Node count of an expression (used only to pick a sufficient fuel). -/
def exprSize : Expr → Nat
  | .strLit _ _ => 1
  | .intLit _ _ => 1
  | .floatLit _ _ => 1
  | .ident _ _ => 1
  | .unaryOp _ e _ => 1 + exprSize e
  | .binaryOp _ l r _ => 1 + exprSize l + exprSize r
  | .call _ args _ => 1 + exprListSize args
  | .cond c t e _ => 1 + exprSize c + exprSize t + exprSize e
termination_by structural e => e

/-- Node count of an argument list. -/
def exprListSize : List Expr → Nat
  | [] => 0
  | e :: es => 1 + exprSize e + exprListSize es
termination_by structural l => l

end

/-- The fuel generateFunction supplies for a body: its size plus one, which
strictly dominates the recursion depth. -/
def bodyFuel (e : Expr) : Nat := exprSize e + 1

/-- The set-up half of CodeGenerator::generateFunction: build the function
type, create the externally-linked function in the module, create the
entry block, clear the local name table and bind every parameter name to
its argument value (later bindings overwrite earlier ones). -/
def funcSetup (f : FunctionDef) (s : CGState) : CGState :=
  let retTy := llvmType f.returnType.kind
  let paramTys := f.parameters.map (fun p => llvmType p.type.kind)
  let fid := s.module.nextFid
  let fd : FuncDecl :=
    { fid := fid, name := f.name, retTy := retTy, paramTys := paramTys,
      paramNames := f.parameters.map (fun p => p.name), isBuiltin := false }
  let entryB := s.nextBlock
  let nv := f.parameters.foldl
    (fun acc p => insertAssoc acc p.name (IRValue.arg fid p.name (llvmType p.type.kind)))
    []
  { s with
    module := { s.module with funcs := s.module.funcs ++ [fd], nextFid := fid + 1 },
    namedValues := nv,
    currentFunction := some fid,
    curBlock := entryB,
    nextBlock := entryB + 1 }

/-- The FuncDecl funcSetup appends to the module for a FunctionDef: the
same record, named so proofs can speak about it. -/
def funcDeclOf (f : FunctionDef) (s : CGState) : FuncDecl :=
  { fid := s.module.nextFid, name := f.name,
    retTy := llvmType f.returnType.kind,
    paramTys := f.parameters.map (fun p => llvmType p.type.kind),
    paramNames := f.parameters.map (fun p => p.name),
    isBuiltin := false }

/-- Mirrors CodeGenerator::generateFunction: on a generated body value,
emit the return and register the function in the module function table;
on no value, erase the partially emitted function from the module.
(verifyFunction only logs and is not modelled.) -/
def generateFunction (f : FunctionDef) (s : CGState) : Option Nat × CGState :=
  let fid := s.module.nextFid
  let s1 := funcSetup f s
  match generateExpression (bodyFuel f.body) f.body s1 with
  | (some retVal, s2) =>
    (some fid,
     { s2 with
       trace := s2.trace ++ [(s2.curBlock, .ret retVal)],
       functions := insertAssoc s2.functions f.name fid })
  | (none, s2) =>
    (none,
     { s2 with module := { s2.module with
         funcs := s2.module.funcs.filter (fun fd => fd.fid != fid) } })

/-- The eleven runtime prototypes of
CodeGenerator::declareBuiltinFunctions, in declaration order. -/
def builtinDecls : List (String × IRType × List IRType) :=
  [("str_print", .i 32, [.ptr (.i 8)]),
   ("str_read", .ptr (.i 8), [.i 32]),
   ("str_len", .i 32, [.ptr (.i 8)]),
   ("str_at", .i 8, [.ptr (.i 8), .i 32]),
   ("str_sub", .ptr (.i 8), [.ptr (.i 8), .i 32, .i 32]),
   ("str_find", .i 32, [.ptr (.i 8), .ptr (.i 8)]),
   ("int_to_str", .ptr (.i 8), [.i 32]),
   ("str_to_int", .i 32, [.ptr (.i 8)]),
   ("float_to_str", .ptr (.i 8), [.fp]),
   ("str_to_float", .fp, [.ptr (.i 8)]),
   ("str_cmp", .i 32, [.ptr (.i 8), .ptr (.i 8)])]

/-- The module right after the CodeGenerator constructor ran: the eleven
built-ins declared with fids 0..10. -/
def initModule : IRModule :=
  { funcs := (builtinDecls.enum).map (fun p =>
      { fid := p.1, name := p.2.1, retTy := p.2.2.1, paramTys := p.2.2.2,
        paramNames := [], isBuiltin := true }),
    globals := [],
    nextFid := builtinDecls.length,
    nextGlobal := 0 }

/-- CodeGenerator state right after construction. -/
def initCGState : CGState :=
  { module := initModule, namedValues := [], functions := [],
    currentFunction := none, trace := [], curBlock := 0, nextBlock := 1,
    nextReg := 0, errors := [] }

/-- Mirrors CodeGenerator::generate: one generateFunction per program
function (module verification only logs and is not modelled). -/
def generateProgram (fs : List FunctionDef) (s : CGState) : CGState :=
  fs.foldl (fun s f => (generateFunction f s).2) s

/-- The whole codegen stage on a parsed program. -/
def generateModule (fs : List FunctionDef) : CGState :=
  generateProgram fs initCGState

/-! ## Driver (src/src/main.cpp) -/

/-- The branching of main (src/src/main.cpp) after parsing, inside its
try/catch: the Bool arguments stand for an exception escaping the
lexing stage, the parsing stage, or the codegen/emit stage (main's
catch turns any of them into exit 1). Result: (exit status, whether
the codegen stage was reached, what was written to stdout). -/
def driverRunCore (parseResult : List FunctionDef × List String)
    (lexThrows parseThrows cgThrows : Bool) : Nat × Bool × Option CGState :=
  if lexThrows then (1, false, none)
  else if parseThrows then (1, false, none)
  else if ¬ parseResult.2.isEmpty then (1, false, none)
  else if cgThrows then (1, true, none)
  else (0, true, some (generateModule parseResult.1))

/-- Mirrors main (src/src/main.cpp) on a source buffer. -/
def driverRun (source : String) (lexThrows parseThrows cgThrows : Bool) :
    Nat × Bool × Option CGState :=
  driverRunCore (parseTokens (tokenizeStr source)) lexThrows parseThrows cgThrows

/-! ## Runtime str_read (src/runtime/lge_runtime.c) -/

/-- BUFFER_SIZE of src/runtime/lge_runtime.c: UCHAR_MAX, i.e. 255, the
size of the shared static buffer glob_buffer. -/
def BUFFER_SIZE : Nat := 255

/-- The characters fgets(buf, m, stream) stores before the terminating
NUL: at most m-1, stopping after a newline. -/
def takeUpToNewline : Nat → List Char → List Char
  | 0, _ => []
  | _, [] => []
  | n + 1, c :: cs => if c = '\n' then [c] else c :: takeUpToNewline n cs

/-- fgets with size m on the given stdin contents: no characters when
m ≤ 1 (glibc returns without reading for m ≤ 0, and reads zero
characters for m = 1), otherwise up to m−1 characters through the first
newline. -/
def fgetsChars (m : Int) (stdin : List Char) : List Char :=
  if m ≤ 1 then []
  else takeUpToNewline (m - 1).toNat stdin

/-- Mirrors str_read of src/runtime/lge_runtime.c: n = MIN(BUFFER_SIZE,
n+1) as the fgets size, then strip one trailing newline. The returned
list is the C-string contents of glob_buffer. -/
def strRead (n : Int) (stdin : List Char) : List Char :=
  let m := min (BUFFER_SIZE : Int) (n + 1)
  let s := fgetsChars m stdin
  if s.getLast? = some '\n' then s.dropLast else s

/-- The number of bytes str_read consumed from stdin. -/
def strReadConsumed (n : Int) (stdin : List Char) : Nat :=
  (fgetsChars (min (BUFFER_SIZE : Int) (n + 1)) stdin).length

/-! ## Concrete inputs used by the evaluation theorems -/

/-- A source file whose single int literal exceeds 32-bit int. -/
def srcOverflow : String := "let f: int = () -> 9999999999"

/-- The token stream of srcOverflow (checked below against tokenizeStr). -/
def toksOverflow : List Token :=
  [⟨.LET, "let", ⟨1, 1, ""⟩⟩, ⟨.IDENTIFIER, "f", ⟨1, 5, ""⟩⟩,
   ⟨.COLON, ":", ⟨1, 6, ""⟩⟩, ⟨.TYPE_INT, "int", ⟨1, 8, ""⟩⟩,
   ⟨.EQUALS, "=", ⟨1, 12, ""⟩⟩, ⟨.LPAREN, "(", ⟨1, 14, ""⟩⟩,
   ⟨.RPAREN, ")", ⟨1, 15, ""⟩⟩, ⟨.ARROW, "->", ⟨1, 17, ""⟩⟩,
   ⟨.INT_LITERAL, "9999999999", ⟨1, 20, ""⟩⟩, ⟨.EOF_TOKEN, "", ⟨1, 30, ""⟩⟩]

/-! ## Helper lemmas -/

theorem lookupAssoc_insert {β : Type} (l : List (String × β)) (k : String) (v : β) :
    lookupAssoc (insertAssoc l k v) k = some v := by
  induction l with
  | nil => simp [insertAssoc, lookupAssoc]
  | cons p rest ih =>
    obtain ⟨k', v'⟩ := p
    by_cases h : k' = k
    · simp [insertAssoc, lookupAssoc, h]
    · simp [insertAssoc, lookupAssoc, h, ih]

theorem isIntegerTy_not_fp {t : IRType} (h : t.isIntegerTy = true) :
    t.isFloatingPointTy = false := by
  cases t <;> simp_all [IRType.isIntegerTy, IRType.isFloatingPointTy]

theorem isFp_not_integerTy {t : IRType} (h : t.isFloatingPointTy = true) :
    t.isIntegerTy = false := by
  cases t <;> simp_all [IRType.isIntegerTy, IRType.isFloatingPointTy]

/-! ## Claim theorems -/

/-- C1: the BinaryOp code generation dispatches on the operand IR types
exactly as specified — integer ops / signed comparisons for two integer
operands, IEEE ops / ordered comparisons for two float operands, and for
mixed operands no coercion, no value and the error "Unsupported binary
operation" at the operator's location; the DIV case, despite its missing
break, behaves exactly as emit-division-then-stop (binSwitchSpec). -/
theorem binop_dispatch_matches_spec :
    (∀ (op : BinOpKind) (l r : IRValue) (loc : Location) (s : CGState),
      binSwitch op l r loc s = binSwitchSpec op l r loc s)
    ∧ (∀ (op : BinOpKind) (l r : IRValue) (loc : Location) (s : CGState),
      (l.getType.isIntegerTy = true ∧ r.getType.isFloatingPointTy = true) ∨
      (l.getType.isFloatingPointTy = true ∧ r.getType.isIntegerTy = true) →
      binSwitch op l r loc s =
        (none, { s with errors := s.errors ++ [("Unsupported binary operation", loc)] })) := by
  constructor
  · intro op l r loc s
    cases op <;> try rfl
    · -- DIV: in the mixed case the fall-through lands in the comparison
      -- case whose conditions are the same and also fail
      simp only [binSwitch, binSwitchSpec, arithCase, cmpCase]
      by_cases hA : (l.getType.isIntegerTy && r.getType.isIntegerTy) = true
      · simp [hA]
      · by_cases hB : (l.getType.isFloatingPointTy && r.getType.isFloatingPointTy) = true
        · simp [hA, hB]
        · simp [hA, hB]
  · intro op l r loc s h
    have hA : (l.getType.isIntegerTy && r.getType.isIntegerTy) = false := by
      rcases h with ⟨h1, h2⟩ | ⟨h1, h2⟩
      · simp [isFp_not_integerTy h2]
      · simp [isFp_not_integerTy h1]
    have hB : (l.getType.isFloatingPointTy && r.getType.isFloatingPointTy) = false := by
      rcases h with ⟨h1, h2⟩ | ⟨h1, h2⟩
      · simp [isIntegerTy_not_fp h1]
      · simp [isIntegerTy_not_fp h2]
    cases op <;>
      simp [binSwitch, arithCase, cmpCase, hA, hB, binOpUnsupported, reportErr]

/-- Witness for C1: integer DIV against a float operand reports the error
and produces no value. -/
theorem binop_dispatch_witness :
    binSwitch .DIV (.constInt (.i 32) 1) (.constFP .fp "1.0") ⟨1, 1, ""⟩ initCGState =
      (none, { initCGState with
        errors := [("Unsupported binary operation", ⟨1, 1, ""⟩)] }) :=
  binop_dispatch_matches_spec.2 .DIV (.constInt (.i 32) 1) (.constFP .fp "1.0")
    ⟨1, 1, ""⟩ initCGState (Or.inl ⟨rfl, rfl⟩)

/-- C2: the lexer's token locations drift. Skipping a newline increments
line twice (advance already increments it, skipWhitespace increments it
again), so the token after one newline carries line 3 instead of 2; and
an UNKNOWN error token carries the column one past the offending byte
('@' sits at column 1 but is reported at column 2). -/
theorem lexer_location_drift :
    tokenizeStr "\na" =
      [⟨.IDENTIFIER, "a", ⟨3, 1, ""⟩⟩, ⟨.EOF_TOKEN, "", ⟨3, 2, ""⟩⟩]
    ∧ tokenizeStr "@" =
      [⟨.UNKNOWN, "Unexpected character", ⟨1, 2, ""⟩⟩,
       ⟨.EOF_TOKEN, "", ⟨1, 2, ""⟩⟩] := by
  exact ⟨by decide, by decide⟩

/-- C5 counterexample: UnaryOp NEG on a string operand is not an
unreported no-op — it produces no value and reports
"Unknown expression type" (the switch breaks out and control falls
through to the unknown-expression branch). -/
theorem neg_nonnumeric_counterexample :
    (generateExpression 2 (.unaryOp .NEG (.strLit "s" ⟨1, 1, ""⟩) ⟨1, 1, ""⟩) initCGState).1
      = none
    ∧ ((generateExpression 2 (.unaryOp .NEG (.strLit "s" ⟨1, 1, ""⟩) ⟨1, 1, ""⟩)
        initCGState).2).errors
      = [("Unknown expression type", ⟨1, 1, ""⟩)] :=
  ⟨rfl, rfl⟩

/-- C5 as amended: NEG emits integer negation on an integer operand and
IEEE negation on a float operand; on an operand of any other type it
emits nothing, produces no value, and reports "Unknown expression type"
at the expression's location. -/
theorem neg_dispatch :
    ∀ (fuel : Nat) (operand : Expr) (loc : Location) (s s' : CGState) (v : IRValue),
      generateExpression fuel operand s = (some v, s') →
      (v.getType.isIntegerTy = true →
        generateExpression (fuel + 1) (.unaryOp .NEG operand loc) s =
          (some (.reg s'.nextReg v.getType),
           { s' with nextReg := s'.nextReg + 1,
                     trace := s'.trace ++ [(s'.curBlock, .neg s'.nextReg v)] }))
      ∧ (v.getType.isFloatingPointTy = true →
        generateExpression (fuel + 1) (.unaryOp .NEG operand loc) s =
          (some (.reg s'.nextReg v.getType),
           { s' with nextReg := s'.nextReg + 1,
                     trace := s'.trace ++ [(s'.curBlock, .fneg s'.nextReg v)] }))
      ∧ (v.getType.isIntegerTy = false → v.getType.isFloatingPointTy = false →
        generateExpression (fuel + 1) (.unaryOp .NEG operand loc) s =
          (none, { s' with errors := s'.errors ++ [("Unknown expression type", loc)] })) := by
  intro fuel operand loc s s' v h
  refine ⟨fun h1 => ?_, fun h1 => ?_, fun h1 h2 => ?_⟩
  · simp [generateExpression, h, h1, emitInstr]
  · simp [generateExpression, h, h1, isFp_not_integerTy h1, emitInstr]
  · simp [generateExpression, h, h1, h2, reportErr]

/-- Witness for C5's amended theorem: NEG of the integer literal 1 emits
an integer negation. -/
theorem neg_dispatch_witness :
    generateExpression 2 (.unaryOp .NEG (.intLit 1 ⟨1, 1, ""⟩) ⟨1, 1, ""⟩) initCGState =
      (some (.reg 0 (.i 32)),
       { initCGState with
           nextReg := 1
           trace := [(0, .neg 0 (.constInt (.i 32) 1))] }) :=
  (neg_dispatch 1 (.intLit 1 ⟨1, 1, ""⟩) ⟨1, 1, ""⟩ initCGState initCGState
    (.constInt (.i 32) 1) rfl).1 rfl

/-- C4: a FunctionCall whose callee is bound in the local name table
evaluates the arguments, synthesizes a function type from the argument
IR types with return type hard-wired to 32-bit integer, bitcasts the
parameter's pointer value to a pointer to that type, and emits the
indirect call (whose value is the i32-typed call result). -/
theorem indirect_call_synthesis :
    ∀ (fuel : Nat) (name : String) (args : List Expr) (loc : Location)
      (s : CGState) (fptr : IRValue) (vs : List IRValue) (s' : CGState),
      lookupAssoc s.namedValues name = some fptr →
      generateArgs fuel args s = (some vs, s') →
      generateExpression (fuel + 1) (.call name args loc) s =
        (some (.reg (s'.nextReg + 1) (.i 32)),
         { s' with
             nextReg := s'.nextReg + 2,
             trace := s'.trace ++
               [(s'.curBlock, .bitcast s'.nextReg fptr
                   (.ptr (.fnTy (.i 32) (vs.map IRValue.getType)))),
                (s'.curBlock, .callInstr (s'.nextReg + 1) (.i 32)
                   (.reg s'.nextReg (.ptr (.fnTy (.i 32) (vs.map IRValue.getType)))) vs)] }) := by
  intro fuel name args loc s fptr vs s' hnv hargs
  simp [generateExpression, hnv, hargs, emitInstr]

/-- Witness for C4: calling parameter f with the single argument 7
synthesizes i32(i32) and emits the bitcast and the indirect call. -/
theorem indirect_call_witness :
    generateExpression 3 (.call "f" [.intLit 7 ⟨1, 1, ""⟩] ⟨1, 1, ""⟩)
      { initCGState with namedValues := [("f", .arg 0 "f" (.ptr (.i 8)))] } =
      (some (.reg 1 (.i 32)),
       { initCGState with
           namedValues := [("f", .arg 0 "f" (.ptr (.i 8)))],
           nextReg := 2,
           trace := [(0, .bitcast 0 (.arg 0 "f" (.ptr (.i 8)))
                        (.ptr (.fnTy (.i 32) [.i 32]))),
                     (0, .callInstr 1 (.i 32)
                        (.reg 0 (.ptr (.fnTy (.i 32) [.i 32])))
                        [.constInt (.i 32) 7])] }) :=
  indirect_call_synthesis 2 "f" [.intLit 7 ⟨1, 1, ""⟩] ⟨1, 1, ""⟩
    { initCGState with namedValues := [("f", .arg 0 "f" (.ptr (.i 8)))] }
    (.arg 0 "f" (.ptr (.i 8))) [.constInt (.i 32) 7]
    { initCGState with namedValues := [("f", .arg 0 "f" (.ptr (.i 8)))] }
    rfl rfl

/-- C9 counterexample: str_read's read cap is not min(n+1, 256). At
n = 255 with ample newline-free input the code consumes 254 bytes
(fgets size MIN(255, n+1) = 255, i.e. at most 254 characters), while
the claimed formula gives 256; even counting the terminating NUL the
buffer receives 255 bytes, not 256. -/
theorem str_read_cap_counterexample :
    strReadConsumed 255 (List.replicate 300 'a') = 254
    ∧ min (255 + 1) 256 = 256
    ∧ strReadConsumed 255 (List.replicate 300 'a') ≠ min (255 + 1) 256
    ∧ strReadConsumed 255 (List.replicate 300 'a') + 1 ≠ min (255 + 1) 256 := by
  exact ⟨by decide, by decide, by decide, by decide⟩

theorem takeUpToNewline_length_le (n : Nat) :
    ∀ (cs : List Char), (takeUpToNewline n cs).length ≤ n := by
  induction n with
  | zero => intro cs; simp [takeUpToNewline]
  | succ n ih =>
    intro cs
    cases cs with
    | nil => simp [takeUpToNewline]
    | cons c rest =>
      simp only [takeUpToNewline]
      by_cases h : c = '\n'
      · simp [h]
      · simp only [if_neg h, List.length_cons]
        exact Nat.succ_le_succ (ih rest)

theorem newline_notin_takeUpToNewline_dropLast (n : Nat) :
    ∀ (cs : List Char), '\n' ∉ (takeUpToNewline n cs).dropLast := by
  induction n with
  | zero => intro cs; simp [takeUpToNewline]
  | succ n ih =>
    intro cs
    cases cs with
    | nil => simp [takeUpToNewline]
    | cons c rest =>
      simp only [takeUpToNewline]
      by_cases h : c = '\n'
      · simp [h]
      · simp only [if_neg h]
        cases htl : takeUpToNewline n rest with
        | nil => simp
        | cons d ds =>
          rw [List.dropLast_cons₂]
          intro hmem
          rcases List.mem_cons.mp hmem with hc | hds
          · exact h hc.symm
          · have := ih rest
            rw [htl] at this
            exact this hds

theorem replicate_no_newline_length (n : Nat) :
    ∀ (m : Nat), (takeUpToNewline n (List.replicate m 'a')).length = min n m := by
  induction n with
  | zero => intro m; simp [takeUpToNewline]
  | succ n ih =>
    intro m
    cases m with
    | zero => simp [takeUpToNewline]
    | succ m =>
      simp only [List.replicate_succ, takeUpToNewline]
      have : ('a' : Char) ≠ '\n' := by decide
      simp only [if_neg this, List.length_cons, ih m]
      omega

/-- C9 as amended: str_read passes min(n+1, 255) as the fgets size, so it
consumes at most min(n, 254) bytes of stdin (254 at most, and at most n);
with ample newline-free input it consumes exactly min(n, 254); a single
trailing newline is stripped, so the stored string never ends in one;
and the shared static buffer BUFFER_SIZE is 255 bytes. -/
theorem str_read_amended :
    BUFFER_SIZE = 255
    ∧ (∀ (n : Int) (stdin : List Char), strReadConsumed n stdin ≤ 254)
    ∧ (∀ (n : Int) (stdin : List Char), (strReadConsumed n stdin : Int) ≤ max n 0)
    ∧ (∀ (n : Int) (stdin : List Char), (strRead n stdin).getLast? ≠ some '\n')
    ∧ (∀ n : Int, 0 ≤ n →
        strReadConsumed n (List.replicate 300 'a') = min n.toNat 254) := by
  refine ⟨rfl, ?_, ?_, ?_, ?_⟩
  · intro n stdin
    simp only [strReadConsumed, fgetsChars]
    split
    · simp
    · calc (takeUpToNewline (min ((BUFFER_SIZE : Nat) : Int) (n + 1) - 1).toNat stdin).length
          ≤ (min ((BUFFER_SIZE : Nat) : Int) (n + 1) - 1).toNat :=
            takeUpToNewline_length_le _ _
        _ ≤ 254 := by simp only [BUFFER_SIZE]; omega
  · intro n stdin
    simp only [strReadConsumed, fgetsChars]
    split
    · simp
    · have h1 :=
        takeUpToNewline_length_le (min ((BUFFER_SIZE : Nat) : Int) (n + 1) - 1).toNat stdin
      have h2 : ((min ((BUFFER_SIZE : Nat) : Int) (n + 1) - 1).toNat : Int) ≤ max n 0 := by
        simp only [BUFFER_SIZE]; omega
      omega
  · intro n stdin
    generalize hgen : fgetsChars (min ((BUFFER_SIZE : Nat) : Int) (n + 1)) stdin = l
    have hdrop : '\n' ∉ l.dropLast := by
      rw [← hgen]
      simp only [fgetsChars]
      split
      · simp
      · exact newline_notin_takeUpToNewline_dropLast _ stdin
    simp only [strRead, hgen]
    split
    · -- the trailing newline was just stripped; dropLast has no newline left
      intro hlast
      obtain ⟨hne, heq⟩ := List.mem_getLast?_eq_getLast (x := '\n') (l := l.dropLast)
        (by simp only [Option.mem_def, hlast])
      exact hdrop (heq ▸ List.getLast_mem hne)
    · -- the buffer did not end in a newline in the first place
      intro hlast
      simp_all
  · intro n hn
    simp only [strReadConsumed, fgetsChars]
    have hcap : ¬ (min ((BUFFER_SIZE : Nat) : Int) (n + 1) ≤ 1) ∨ n = 0 := by
      simp only [BUFFER_SIZE]; omega
    rcases hcap with hgt | hzero
    · rw [if_neg hgt, replicate_no_newline_length]
      simp only [BUFFER_SIZE]
      omega
    · subst hzero
      norm_num [BUFFER_SIZE, takeUpToNewline]

/-- Witness for C9's amended theorem at n = 10. -/
theorem str_read_amended_witness :
    (0 : Int) ≤ 10
    ∧ strReadConsumed 10 (List.replicate 300 'a') = min (10 : Int).toNat 254 :=
  ⟨by decide, str_read_amended.2.2.2.2 10 (by decide)⟩

/-- C3: the parser builds ASTs under the specified precedence, shown on
the claim's own inputs run through the full lexer-parser pipeline:
`a + b * c` parses with the MUL node as the right child of the ADD
node; `a * b + c` parses with ADD at the root and MUL as its left
child; and unary minus binds tighter than every binary operator, so
`-a * b` parses as `(-a) * b`. -/
theorem parser_precedence :
    parseExpression 9 ⟨tokenizeStr "a + b * c", 0, []⟩ =
      (.ok (.binaryOp .ADD (.ident "a" ⟨1, 1, ""⟩)
            (.binaryOp .MUL (.ident "b" ⟨1, 5, ""⟩) (.ident "c" ⟨1, 9, ""⟩) ⟨1, 7, ""⟩)
            ⟨1, 3, ""⟩),
       ⟨tokenizeStr "a + b * c", 5, []⟩)
    ∧ parseExpression 9 ⟨tokenizeStr "a * b + c", 0, []⟩ =
      (.ok (.binaryOp .ADD
            (.binaryOp .MUL (.ident "a" ⟨1, 1, ""⟩) (.ident "b" ⟨1, 5, ""⟩) ⟨1, 3, ""⟩)
            (.ident "c" ⟨1, 9, ""⟩) ⟨1, 7, ""⟩),
       ⟨tokenizeStr "a * b + c", 5, []⟩)
    ∧ parseExpression 9 ⟨tokenizeStr "-a * b", 0, []⟩ =
      (.ok (.binaryOp .MUL
            (.unaryOp .NEG (.ident "a" ⟨1, 2, ""⟩) ⟨1, 1, ""⟩)
            (.ident "b" ⟨1, 6, ""⟩) ⟨1, 4, ""⟩),
       ⟨tokenizeStr "-a * b", 4, []⟩) := by
  refine ⟨rfl, rfl, rfl⟩

/-- C7: the driver's exit behavior. driverRun factors through
driverRunCore on the parse result; a non-empty parse error list gives
exit 1 with the codegen stage never reached (whether or not codegen
would throw); an empty error list with no stage throwing gives exit 0
with the generated module written to stdout; and a throw in any stage
gives exit 1. -/
theorem driver_exit_codes :
    (∀ (src : String) (lexT parseT cgT : Bool),
      driverRun src lexT parseT cgT =
        driverRunCore (parseTokens (tokenizeStr src)) lexT parseT cgT)
    ∧ (∀ (pr : List FunctionDef × List String) (cgT : Bool),
      ¬ pr.2.isEmpty →
      driverRunCore pr false false cgT = (1, false, none))
    ∧ (∀ (pr : List FunctionDef × List String),
      pr.2.isEmpty →
      driverRunCore pr false false false = (0, true, some (generateModule pr.1)))
    ∧ (∀ (pr : List FunctionDef × List String) (lexT parseT cgT : Bool),
      lexT = true ∨ parseT = true ∨ cgT = true →
      (driverRunCore pr lexT parseT cgT).1 = 1) := by
  refine ⟨fun _ _ _ _ => rfl, ?_, ?_, ?_⟩
  · intro pr cgT h
    simp [driverRunCore, h]
  · intro pr h
    simp [driverRunCore, h]
  · intro pr lexT parseT cgT h
    rcases h with h | h | h <;> subst h <;> simp only [driverRunCore] <;>
      split_ifs <;> rfl

/-- Witness for C7: a parse result with one error exits 1 without
reaching codegen; an empty error list exits 0 with the module emitted;
a lexer-stage throw exits 1. -/
theorem driver_exit_codes_witness :
    driverRunCore ([], ["x"]) false false false = (1, false, none)
    ∧ driverRunCore ([], []) false false false = (0, true, some (generateModule []))
    ∧ (driverRunCore ([], []) true false false).1 = 1 :=
  ⟨driver_exit_codes.2.1 ([], ["x"]) false (by decide),
   driver_exit_codes.2.2.1 ([], []) (by decide),
   driver_exit_codes.2.2.2 ([], []) true false false (Or.inl rfl)⟩

/-- C10: a source file whose INT_LITERAL lies outside 32-bit int does not
crash the compiler. std::stoi raises out_of_range (what() = "stoi")
inside parsePrimary; the top-level parse loop catches it, records it as
a parse error and resynchronizes (the parse returns normally with an
empty program and the error list ["stoi"]); the driver then exits with
status 1 without invoking code generation. -/
theorem int_literal_overflow_recovery :
    stoi "9999999999" = .error (.outOfRange "stoi")
    ∧ tokenizeStr srcOverflow = toksOverflow
    ∧ parsePrimary 1 ⟨toksOverflow, 8, []⟩ =
        (.error (.outOfRange "stoi"), ⟨toksOverflow, 9, []⟩)
    ∧ (parseTokens toksOverflow).2 = ["stoi"]
    ∧ (parseTokens toksOverflow).1.isEmpty = true
    ∧ driverRun srcOverflow false false false = (1, false, none) := by
  refine ⟨by rfl, by decide, by rfl, by decide, by decide, ?_⟩
  have h2 : (parseTokens (tokenizeStr srcOverflow)).2 = ["stoi"] := by decide
  show driverRunCore (parseTokens (tokenizeStr srcOverflow)) false false false
      = (1, false, none)
  simp [driverRunCore, h2]

theorem peekL_default (st : LexState) (h : st.input.length ≤ st.position) :
    peekL st 0 = '\x00' := by
  simp only [peekL, Nat.add_zero]
  exact List.getD_eq_default st.input '\x00' h

theorem advanceL_moves (st : LexState) (h : isAtEndL st = false) :
    (advanceL st).2.position = st.position + 1
    ∧ (advanceL st).2.input = st.input := by
  simp only [advanceL, h]
  rw [if_neg (by simp)]
  split <;> simp

theorem advanceL_char (st : LexState) (h : isAtEndL st = false) :
    (advanceL st).1 = peekL st 0 := by
  simp only [advanceL, h, peekL, Nat.add_zero]
  rw [if_neg (by simp)]
  split <;> simp

theorem skipWhitespace_peek (fuel : Nat) :
    ∀ (st : LexState), st.input.length ≤ st.position + fuel →
      peekL (skipWhitespace fuel st) 0 ≠ ' '
      ∧ peekL (skipWhitespace fuel st) 0 ≠ '\t'
      ∧ peekL (skipWhitespace fuel st) 0 ≠ '\r'
      ∧ peekL (skipWhitespace fuel st) 0 ≠ '\n' := by
  induction fuel with
  | zero =>
    intro st h
    have hp : peekL (skipWhitespace 0 st) 0 = '\x00' := by
      show peekL st 0 = '\x00'
      exact peekL_default st (by omega)
    refine ⟨?_, ?_, ?_, ?_⟩ <;> rw [hp] <;> decide
  | succ fuel ih =>
    intro st h
    have hnotend : ∀ (c : Char), peekL st 0 = c → c ≠ '\x00' → isAtEndL st = false := by
      intro c hc hne
      by_contra hend
      have : isAtEndL st = true := by revert hend; cases isAtEndL st <;> simp
      have hlen : st.input.length ≤ st.position := by
        simpa [isAtEndL, ge_iff_le, decide_eq_true_eq] using this
      rw [peekL_default st hlen] at hc
      exact hne hc.symm
    by_cases h1 : peekL st 0 = ' ' ∨ peekL st 0 = '\t' ∨ peekL st 0 = '\r'
    · have hend : isAtEndL st = false := by
        rcases h1 with h1 | h1 | h1 <;> exact hnotend _ h1 (by decide)
      have hcond : (peekL st 0 = ' ' || peekL st 0 = '\t' || peekL st 0 = '\r') = true := by
        rcases h1 with h1 | h1 | h1 <;> simp [h1]
      have hm := advanceL_moves st hend
      have hrec : skipWhitespace (fuel + 1) st = skipWhitespace fuel (advanceL st).2 := by
        simp only [skipWhitespace]
        rw [if_pos hcond]
      rw [hrec]
      exact ih (advanceL st).2 (by rw [hm.1, hm.2]; omega)
    · by_cases h2 : peekL st 0 = '\n'
      · have hend : isAtEndL st = false := hnotend _ h2 (by decide)
        have hcond : (peekL st 0 = ' ' || peekL st 0 = '\t' || peekL st 0 = '\r') = false := by
          push_neg at h1
          simp [h1.1, h1.2.1, h1.2.2]
        have hm := advanceL_moves st hend
        have hrec : skipWhitespace (fuel + 1) st =
            skipWhitespace fuel
              { (advanceL st).2 with line := (advanceL st).2.line + 1, column := 1 } := by
          simp only [skipWhitespace]
          rw [if_neg (by simp [hcond]), if_pos h2]
        rw [hrec]
        exact ih _ (by simp only [hm.1, hm.2]; omega)
      · have hcond : (peekL st 0 = ' ' || peekL st 0 = '\t' || peekL st 0 = '\r') = false := by
          push_neg at h1
          simp [h1.1, h1.2.1, h1.2.2]
        have hrec : skipWhitespace (fuel + 1) st = st := by
          simp only [skipWhitespace]
          rw [if_neg (by simp [hcond]), if_neg h2]
        rw [hrec]
        push_neg at h1
        exact ⟨h1.1, h1.2.1, h1.2.2, h2⟩

theorem keywords_lookup_ne_newline (t : String) (k : TokenType) :
    lookupAssoc keywords t = some k → k ≠ .NEWLINE := by
  simp only [keywords, lookupAssoc]
  intro h
  split_ifs at h <;> simp_all <;> subst h <;> decide

theorem handleIdentifier_type (st : LexState) :
    (handleIdentifier st).1.type ≠ .NEWLINE := by
  simp only [handleIdentifier]
  split
  · exact keywords_lookup_ne_newline _ _ (by assumption)
  · decide

theorem handleNumber_type (st : LexState) :
    (handleNumber st).1.type ≠ .NEWLINE := by
  simp only [handleNumber]
  split <;> split <;> decide

theorem handleString_type (st : LexState) :
    (handleString st).1.type ≠ .NEWLINE := by
  simp only [handleString]
  split
  · exact fun h => by simp [errorToken, Token.mk.injEq] at h
  · simp

theorem handleComment_type (st : LexState) :
    (handleComment st).1.type ≠ .NEWLINE := by
  simp only [handleComment]
  decide

/-- Lexer::nextToken never returns a NEWLINE token: skipWhitespace has
already consumed every newline, so the dispatch's newline case cannot
fire. -/
theorem nextTokenL_type (st0 : LexState) : (nextTokenL st0).1.type ≠ .NEWLINE := by
  unfold nextTokenL
  have hws := skipWhitespace_peek (st0.input.length + 1 - st0.position) st0 (by omega)
  set st := skipWhitespace (st0.input.length + 1 - st0.position) st0 with hst
  by_cases hend : isAtEndL st = true
  · rw [if_pos hend]
    simp [makeToken]
  · have hendf : isAtEndL st = false := by revert hend; cases isAtEndL st <;> simp
    rw [if_neg (by simp [hendf])]
    have hc : (advanceL st).1 = peekL st 0 := advanceL_char st hendf
    obtain ⟨hw1, hw2, hw3, hwn⟩ := hws
    rcases hadv : advanceL st with ⟨c, st1⟩
    rw [hadv] at hc
    have hceq : c = peekL st 0 := by simpa using hc
    have hcn : c ≠ '\n' := fun hh => hwn (hceq.symm.trans hh)
    dsimp only
    by_cases ha : (c.isAlpha || c = '_') = true
    · rw [if_pos ha]
      exact handleIdentifier_type _
    · rw [if_neg ha]
      by_cases hd : c.isDigit = true
      · rw [if_pos hd]
        exact handleNumber_type _
      · rw [if_neg hd]
        by_cases hq : c = '"'
        · rw [if_pos hq]
          exact handleString_type _
        · rw [if_neg hq]
          by_cases hh : c = '#'
          · rw [if_pos hh]
            exact handleComment_type _
          · rw [if_neg hh]
            split <;>
              first
                | (exact absurd rfl hcn)
                | (split <;> simp [makeToken, errorToken])
                | simp [makeToken, errorToken]

theorem tokenizeLoop_no_newline :
    ∀ (fuel : Nat) (st : LexState) (t : Token), t ∈ tokenizeLoop fuel st →
      t.type ≠ .NEWLINE := by
  intro fuel
  induction fuel with
  | zero => intro st t h; simp [tokenizeLoop] at h
  | succ fuel ih =>
    intro st t h
    have hnt := nextTokenL_type st
    simp only [tokenizeLoop] at h
    rcases hx : nextTokenL st with ⟨tok, st'⟩
    rw [hx] at h hnt
    split at h
    · rcases List.mem_singleton.mp h with rfl
      exact hnt
    · rcases List.mem_cons.mp h with rfl | hmem
      · exact hnt
      · exact ih st' t hmem

/-- C8: for every source buffer, the token stream returned by tokenize
contains no NEWLINE token — skipWhitespace consumes every newline
before the dispatch runs, so the dispatch's newline branch never fires. -/
theorem no_newline_tokens :
    ∀ (source : String) (t : Token), t ∈ tokenizeStr source →
      t.type ≠ TokenType.NEWLINE :=
  fun _ t ht => tokenizeLoop_no_newline _ _ t ht

/-- Witness for C8: the identifier token of the source "x". -/
theorem no_newline_tokens_witness :
    (⟨.IDENTIFIER, "x", ⟨1, 1, ""⟩⟩ : Token) ∈ tokenizeStr "x"
    ∧ (⟨.IDENTIFIER, "x", ⟨1, 1, ""⟩⟩ : Token).type ≠ TokenType.NEWLINE :=
  ⟨by decide, no_newline_tokens "x" ⟨.IDENTIFIER, "x", ⟨1, 1, ""⟩⟩ (by decide)⟩

/-- The BinaryOp switch touches only trace, registers and errors: the
module's function list survives it unchanged. -/
theorem binSwitch_funcs (op : BinOpKind) (l r : IRValue) (loc : Location) (s : CGState) :
    ((binSwitch op l r loc s).2).module.funcs = s.module.funcs := by
  cases op <;>
    simp only [binSwitch, arithCase, cmpCase] <;>
    split_ifs <;>
    simp [emitInstr, binOpUnsupported, reportErr]

/-- Expression generation never adds or removes module functions: only
generateFunction touches the module's function list. -/
theorem genExpr_funcs (fuel : Nat) :
    (∀ (e : Expr) (s : CGState),
      ((generateExpression fuel e s).2).module.funcs = s.module.funcs)
    ∧ (∀ (es : List Expr) (s : CGState),
      ((generateArgs fuel es s).2).module.funcs = s.module.funcs) := by
  induction fuel with
  | zero => exact ⟨fun e s => rfl, fun es s => rfl⟩
  | succ fuel ih =>
    obtain ⟨ihE, ihA⟩ := ih
    have stepE : ∀ (x : Expr) (sa : CGState) (ov : Option IRValue) (sb : CGState),
        generateExpression fuel x sa = (ov, sb) →
        sb.module.funcs = sa.module.funcs := by
      intro x sa ov sb hx
      have h := congrArg (fun p : Option IRValue × CGState => p.2.module.funcs) hx
      dsimp only at h
      rw [ihE] at h
      exact h.symm
    have stepA : ∀ (xs : List Expr) (sa : CGState) (ov : Option (List IRValue))
        (sb : CGState),
        generateArgs fuel xs sa = (ov, sb) →
        sb.module.funcs = sa.module.funcs := by
      intro xs sa ov sb hx
      have h := congrArg (fun p : Option (List IRValue) × CGState => p.2.module.funcs) hx
      dsimp only at h
      rw [ihA] at h
      exact h.symm
    refine ⟨?_, ?_⟩
    · intro e s
      cases e with
      | strLit v l => rfl
      | intLit v l => rfl
      | floatLit v l => rfl
      | ident name l =>
        simp only [generateExpression]
        cases h1 : lookupAssoc s.namedValues name with
        | some v => rfl
        | none =>
          cases h2 : lookupAssoc s.functions name with
          | some fid => rfl
          | none => rfl
      | unaryOp op operand l =>
        cases op
        simp only [generateExpression]
        split
        next sb hx => exact stepE _ _ _ _ hx
        next v sb hx =>
          have h1 := stepE _ _ _ _ hx
          split_ifs <;> exact h1
      | binaryOp op left right l =>
        simp only [generateExpression]
        split
        · rw [binSwitch_funcs, ihE, ihE]
        · dsimp only
          rw [ihE, ihE]
      | call funcName args l =>
        simp only [generateExpression]
        split
        next funcPtr hnv =>
          split
          next sb hx => exact stepA _ _ _ _ hx
          next argVals sb hx =>
            have h1 := stepA _ _ _ _ hx
            exact h1
        next hnv =>
          split
          next hfd => rfl
          next fd hfd =>
            split_ifs with harity
            · rfl
            · split
              next sb hx => exact stepA _ _ _ _ hx
              next argVals sb hx =>
                have h1 := stepA _ _ _ _ hx
                exact h1
      | cond c t e l =>
        simp only [generateExpression]
        split
        next sb hx => exact stepE _ _ _ _ hx
        next condV s1 hx =>
          have h1 := stepE _ _ _ _ hx
          split_ifs with hA hB
          · dsimp only [emitInstr]
            split
            next s3 hxt => exact (stepE _ _ _ _ hxt).trans h1
            next thenV s3 hxt =>
              have h2 := (stepE _ _ _ _ hxt).trans h1
              dsimp only [emitTerm]
              split
              next s4 hxe => exact (stepE _ _ _ _ hxe).trans h2
              next elseV s4 hxe =>
                have h3 := (stepE _ _ _ _ hxe).trans h2
                exact h3
          · dsimp only [emitInstr]
            split
            next s3 hxt => exact (stepE _ _ _ _ hxt).trans h1
            next thenV s3 hxt =>
              have h2 := (stepE _ _ _ _ hxt).trans h1
              dsimp only [emitTerm]
              split
              next s4 hxe => exact (stepE _ _ _ _ hxe).trans h2
              next elseV s4 hxe =>
                have h3 := (stepE _ _ _ _ hxe).trans h2
                exact h3
          · exact h1
    · intro es s
      cases es with
      | nil => rfl
      | cons x rest =>
        simp only [generateArgs]
        split
        next sb hx => exact stepE _ _ _ _ hx
        next v sb hx =>
          have h1 := stepE _ _ _ _ hx
          split
          next sc hy => exact (stepA _ _ _ _ hy).trans h1
          next vs sc hy => exact (stepA _ _ _ _ hy).trans h1

/-- The function definition the C6 witness feeds to generateFunction: its
body is an undefined variable, so body generation yields no value. -/
def fBad : FunctionDef :=
  ⟨"bad", ⟨.INT, ⟨1, 1, ""⟩⟩, [], .ident "x" ⟨1, 1, ""⟩, ⟨1, 1, ""⟩⟩

/-- C6: if the body expression of a function yields no value, generateFunction
erases the partially emitted function, restoring the module's function list
(so no function of that name remains when none was there before); if the body
yields a value, a ret of that value is emitted at the current insertion block
and the function is registered in the name-to-function table under the fresh
function id. The freshness hypotheses hold of every state the driver actually
reaches, since function ids increase monotonically. -/
theorem function_erase_or_register (f : FunctionDef) (s : CGState)
    (hfresh : ∀ fd ∈ s.module.funcs, fd.fid ≠ s.module.nextFid)
    (hname : ∀ fd ∈ s.module.funcs, fd.name ≠ f.name) :
    (∀ s2, generateExpression (bodyFuel f.body) f.body (funcSetup f s) = (none, s2) →
       (generateFunction f s).1 = none
       ∧ ((generateFunction f s).2).module.funcs = s.module.funcs
       ∧ ∀ fd ∈ ((generateFunction f s).2).module.funcs, fd.name ≠ f.name)
    ∧ (∀ v s2, generateExpression (bodyFuel f.body) f.body (funcSetup f s) = (some v, s2) →
       (generateFunction f s).1 = some s.module.nextFid
       ∧ ((generateFunction f s).2).trace = s2.trace ++ [(s2.curBlock, .ret v)]
       ∧ lookupAssoc ((generateFunction f s).2).functions f.name
           = some s.module.nextFid) := by
  constructor
  · intro s2 hb
    have h2 : s2.module.funcs = s.module.funcs ++ [funcDeclOf f s] := by
      have h := congrArg (fun p : Option IRValue × CGState => p.2.module.funcs) hb
      dsimp only at h
      rw [(genExpr_funcs (bodyFuel f.body)).1] at h
      exact h.symm
    have hfuncs : ((generateFunction f s).2).module.funcs = s.module.funcs := by
      simp only [generateFunction]
      rw [hb]
      show (s2.module.funcs.filter (fun fd => fd.fid != s.module.nextFid))
        = s.module.funcs
      rw [h2, List.filter_append]
      have hkeep : s.module.funcs.filter (fun fd => fd.fid != s.module.nextFid)
          = s.module.funcs :=
        List.filter_eq_self.mpr (fun fd hfd => by
          simpa [bne_iff_ne] using hfresh fd hfd)
      rw [hkeep]
      simp [funcDeclOf]
    refine ⟨?_, hfuncs, ?_⟩
    · show (generateFunction f s).1 = none
      simp only [generateFunction]
      rw [hb]
    · intro fd hfd
      rw [hfuncs] at hfd
      exact hname fd hfd
  · intro v s2 hb
    refine ⟨?_, ?_, ?_⟩
    · simp only [generateFunction]
      rw [hb]
    · simp only [generateFunction]
      rw [hb]
    · show lookupAssoc ((generateFunction f s).2).functions f.name = _
      simp only [generateFunction]
      rw [hb]
      show lookupAssoc (insertAssoc s2.functions f.name s.module.nextFid) f.name
        = some s.module.nextFid
      exact lookupAssoc_insert _ _ _

/-- Witness for C6 at a concrete failing function and the freshly
constructed code generator state. -/
theorem function_erase_witness :
    (generateFunction fBad initCGState).1 = none
    ∧ ((generateFunction fBad initCGState).2).module.funcs = initCGState.module.funcs
    ∧ ∀ fd ∈ ((generateFunction fBad initCGState).2).module.funcs, fd.name ≠ "bad" :=
  (function_erase_or_register fBad initCGState (by decide) (by decide)).1
    (generateExpression (bodyFuel fBad.body) fBad.body (funcSetup fBad initCGState)).2
    rfl

end LGE
